import Mathlib

/-!
Verification development for the Python backend of quicktype
(`src/quicktype-core/language/Python.ts`).

The definitions below are a shallow embedding of that file: the
value-or-lambda representation and its `compose` / `makeValue` /
`makeLambda` operations, the name-styling entry points
(`classNameStyle`, `snakeNameStyle`) together with the character
predicates `isStartCharacter2/3`, `isPartCharacter2/3`, the transformer
compiler (`transformer`, `deserializer`, `serializer`) over a model of
the type graph, and a semantics for the emitted converter primitives
(`from_union`, `from_int`, `from_list`, ...) whose Python bodies appear
verbatim in the source.

Code of the repository that is not part of the given source file
(`support/Strings.ts`, `Source.ts`, the `unicode-properties` dependency,
the naming infrastructure) is modelled from the specification; each such
definition carries a doc comment starting with `Modelled from the spec:`.
Exceptions thrown by `panic` are embedded as `Except.error`.
-/

namespace PyQt

/-- Modelled from the spec: the `Sourcelike` type of `Source.ts` (not in
`src/`), the recursive string/array representation of generated source
fragments.  The `Name` constructor variants are not needed here: names
reaching the embedded functions are already rendered strings. -/
inductive Sourcelike where
  | str (s : String)
  | arr (elems : List Sourcelike)

/-- Modelled from the spec: `MultiWord` of `Source.ts` (not in `src/`): a
source fragment together with the flag saying whether it must be
parenthesized when it is applied. -/
structure MultiWord where
  source : Sourcelike
  needsParens : Bool

/-- Modelled from the spec: `multiWord(separator, ...words)` of
`Source.ts`: interleaves the words with the separator; the result needs
parentheses when applied. -/
def multiWord (separator : String) (words : List Sourcelike) : MultiWord :=
  { source := Sourcelike.arr (List.intersperse (Sourcelike.str separator) words)
    needsParens := true }

/-- Modelled from the spec: `singleWord(...source)` of `Source.ts`: the
given fragments, needing no parentheses when applied. -/
def singleWord (source : List Sourcelike) : MultiWord :=
  { source := Sourcelike.arr source, needsParens := false }

/-- Modelled from the spec: `parenIfNeeded` of `Source.ts`: wraps the
fragment in parentheses exactly when the `MultiWord` asks for it. -/
def parenIfNeeded (mw : MultiWord) : Sourcelike :=
  if mw.needsParens then
    Sourcelike.arr [Sourcelike.str "(", mw.source, Sourcelike.str ")"]
  else
    mw.source

/-- The `ValueOrLambda` type (Python.ts lines 514-517): either a concrete
expression, a pending unary function, both (meaning "apply the function
to the expression"), or neither (the neutral start). -/
structure ValueOrLambda where
  value : Option Sourcelike
  lambda : Option MultiWord

/-- `makeValue` (Python.ts lines 566-574).  Collapses a `ValueOrLambda`
to a plain expression; panics when there is no value. -/
def makeValue (vol : ValueOrLambda) : Except String Sourcelike :=
  match vol.value with
  | Option.none => Except.error "Cannot make value from lambda without value"
  | Option.some v =>
    match vol.lambda with
    | Option.some l =>
      Except.ok (Sourcelike.arr [parenIfNeeded l, Sourcelike.str "(", v, Sourcelike.str ")"])
    | Option.none => Except.ok v

/-- The first overload of `compose` (Python.ts lines 522-530), taking a
transformation step as a function from expressions to expressions. -/
def composeFn (input : ValueOrLambda) (f : Sourcelike → Sourcelike) :
    Except String ValueOrLambda :=
  match input.value with
  | Option.some _ => do
      let mv ← makeValue input
      Except.ok { value := Option.some (f mv), lambda := Option.none }
  | Option.none =>
    match input.lambda with
    | Option.some l =>
      Except.ok
        { lambda := Option.some (multiWord " "
            [Sourcelike.str "lambda x:",
             f (Sourcelike.arr [parenIfNeeded l, Sourcelike.str "(x)"])])
          value := Option.none }
    | Option.none =>
      Except.ok
        { lambda := Option.some (multiWord " "
            [Sourcelike.str "lambda x:", f (Sourcelike.str "x")])
          value := Option.none }

/-- The second overload of `compose` (Python.ts lines 532-549), taking a
`ValueOrLambda` as the transformation step. -/
def composeVol (input : ValueOrLambda) (f : ValueOrLambda) :
    Except String ValueOrLambda :=
  if f.value.isSome then
    Except.error "Cannot compose into a value"
  else
    match f.lambda with
    | Option.none => Except.ok input
    | Option.some flam =>
      match input.value with
      | Option.none =>
        match input.lambda with
        | Option.none => Except.ok f
        | Option.some ilam =>
          Except.ok
            { lambda := Option.some (multiWord ""
                [Sourcelike.str "lambda x: ", parenIfNeeded flam, Sourcelike.str "(",
                 parenIfNeeded ilam, Sourcelike.str "(x))"])
              value := Option.none }
      | Option.some _ => do
          let mv ← makeValue input
          Except.ok { lambda := Option.some flam, value := Option.some mv }

/-- The neutral `ValueOrLambda` (Python.ts line 552): `{ value: undefined }`. -/
def identity : ValueOrLambda := { value := Option.none, lambda := Option.none }

/-- `makeLambda` (Python.ts lines 554-564). -/
def makeLambda (vol : ValueOrLambda) : MultiWord :=
  match vol.lambda with
  | Option.some l =>
    match vol.value with
    | Option.none => l
    | Option.some _ =>
      multiWord "" [Sourcelike.str "lambda x: ", parenIfNeeded l, Sourcelike.str "(x)"]
  | Option.none =>
    match vol.value with
    | Option.some v => multiWord " " [Sourcelike.str "lambda x:", v]
    | Option.none => multiWord " " [Sourcelike.str "lambda x:", Sourcelike.str "x"]

/-- Modelled from the spec: the Unicode general-category lookup of the
`unicode-properties` dependency (external to the repository).  The table
is exact on the ASCII range (letters, digits, underscore, and the
punctuation appearing in the scenarios of the spec) and on U+00E9; all
remaining code points are mapped to the unassigned category, which is
outside every identifier class, the only property of the category this
development ever uses. -/
def getCategory (u : Nat) : String :=
  if 48 ≤ u ∧ u ≤ 57 then "Nd"
  else if 65 ≤ u ∧ u ≤ 90 then "Lu"
  else if 97 ≤ u ∧ u ≤ 122 then "Ll"
  else if u = 95 then "Pc"
  else if u = 32 then "Zs"
  else if u = 45 then "Pd"
  else if u < 128 then "Po"
  else if u = 233 then "Ll"
  else "Cn"

/-- Modelled from the spec: `isAscii` of `support/Strings.ts` (not in
`src/`): the code unit is in the 7-bit ASCII range. -/
def isAscii (u : Nat) : Bool := u < 128

/-- Modelled from the spec: `isLetter` of `support/Strings.ts` (not in
`src/`): the character is in one of the Unicode letter categories (the
categories whose name starts with the letter L). -/
def isLetter (u : Nat) : Bool :=
  match (getCategory u).toList with
  | c :: _ => c == 'L'
  | [] => false

/-- Modelled from the spec: `isLetterOrUnderscoreOrDigit` of
`support/Strings.ts` (not in `src/`). -/
def isLetterOrUnderscoreOrDigit (u : Nat) : Bool :=
  isLetter u || u == 95 || getCategory u == "Nd"

/-- `isStartCharacter2` (Python.ts lines 161-163): ASCII-only identifier
start characters of the older grammar. -/
def isStartCharacter2 (utf16Unit : Nat) : Bool :=
  isAscii utf16Unit && isLetter utf16Unit

/-- `isPartCharacter2` (Python.ts lines 165-167). -/
def isPartCharacter2 (utf16Unit : Nat) : Bool :=
  isAscii utf16Unit && isLetterOrUnderscoreOrDigit utf16Unit

/-- Modelled from the spec: NFKC normalization of a single code point
(`String.prototype.normalize`, external to the repository).  On the code
points this development evaluates (ASCII and U+00E9) NFKC is the
identity, which is what this model returns. -/
def nfkc (u : Nat) : List Nat := [u]

/-- `isNormalizedStartCharacter3` (Python.ts lines 169-173). -/
def isNormalizedStartCharacter3 (utf16Unit : Nat) : Bool :=
  ["Lu", "Ll", "Lt", "Lm", "Lo", "Nl"].contains (getCategory utf16Unit)

/-- `isNormalizedPartCharacter3` (Python.ts lines 175-180). -/
def isNormalizedPartCharacter3 (utf16Unit : Nat) : Bool :=
  isNormalizedStartCharacter3 utf16Unit ||
    ["Mn", "Mc", "Nd", "Pc"].contains (getCategory utf16Unit)

/-- `isStartCharacter3` (Python.ts lines 182-190): normalize, then check
the first normalized unit as a start character and the rest as part
characters. -/
def isStartCharacter3 (utf16Unit : Nat) : Bool :=
  match nfkc utf16Unit with
  | [] => false
  | c :: rest => isNormalizedStartCharacter3 c && rest.all isNormalizedPartCharacter3

/-- `isPartCharacter3` (Python.ts lines 192-199). -/
def isPartCharacter3 (utf16Unit : Nat) : Bool :=
  (nfkc utf16Unit).all isNormalizedPartCharacter3

/-- Modelled from the spec: `utf16LegalizeCharacters` of
`support/Strings.ts` (not in `src/`): keeps the characters the predicate
allows and drops the rest (the spec allows dropping or replacing). -/
def utf16LegalizeCharacters (pred : Nat → Bool) (s : String) : String :=
  String.mk (s.toList.filter (fun c => pred c.toNat))

/-- `legalizeName2` (Python.ts line 201). -/
def legalizeName2 : String → String := utf16LegalizeCharacters isPartCharacter2

/-- `legalizeName3` (Python.ts line 202). -/
def legalizeName3 : String → String := utf16LegalizeCharacters isPartCharacter3

/-- The `PythonVersion` type (Python.ts line 99): `2 | 3`. -/
inductive PythonVersion where
  | v2
  | v3
deriving Repr, DecidableEq

/-- Modelled from the spec: a word produced by segmentation, classified
as an acronym (upper-case) run or an ordinary run. -/
structure Word where
  word : String
  isAcronym : Bool
deriving Repr, DecidableEq

/-- Modelled from the spec: the character class used by the word
segmentation: upper-case run, lower-case run, digit run, or a
non-identifier separator. -/
inductive CharClass where
  | upper
  | lower
  | digit
  | other
deriving Repr, DecidableEq

/-- Modelled from the spec: classification of one character for word
segmentation (letter category lookup). -/
def classOf (c : Char) : CharClass :=
  let cat := getCategory c.toNat
  if cat = "Lu" then CharClass.upper
  else if cat = "Ll" then CharClass.lower
  else if cat = "Nd" then CharClass.digit
  else CharClass.other

/-- Modelled from the spec: maximal runs of characters of the same
class. -/
def groupRuns : List Char → List (CharClass × List Char)
  | [] => []
  | c :: cs =>
    match groupRuns cs with
    | [] => [(classOf c, [c])]
    | (cl, run) :: rest =>
      if classOf c = cl then (cl, c :: run) :: rest
      else (classOf c, [c]) :: (cl, run) :: rest

/-- Modelled from the spec: turns runs into words.  Separator runs are
word breaks and are dropped; an upper-case run followed by a lower-case
run donates its last character to the lower-case word (a single
upper-case letter capitalizes the word, a longer run leaves an acronym
behind); remaining upper-case runs are acronyms. -/
def mergeRuns : List (CharClass × List Char) → List Word
  | [] => []
  | (CharClass.other, _) :: rest => mergeRuns rest
  | (CharClass.upper, u) :: (CharClass.lower, l) :: rest =>
    if u.length == 1 then
      Word.mk (String.mk (u ++ l)) false :: mergeRuns rest
    else
      Word.mk (String.mk (u.take (u.length - 1))) true ::
        Word.mk (String.mk (u.drop (u.length - 1) ++ l)) false :: mergeRuns rest
  | (CharClass.upper, u) :: rest => Word.mk (String.mk u) true :: mergeRuns rest
  | (_, run) :: rest => Word.mk (String.mk run) false :: mergeRuns rest

/-- Modelled from the spec: `splitIntoWords` of `support/Strings.ts`
(not in `src/`): segment a label into words at case-class changes,
letter/digit boundaries, and non-identifier characters. -/
def splitIntoWords (s : String) : List Word :=
  mergeRuns (groupRuns s.toList)

/-- Modelled from the spec: ASCII upper-casing of one character
(identity beyond ASCII). -/
def toUpperChar (c : Char) : Char :=
  if 97 ≤ c.toNat ∧ c.toNat ≤ 122 then Char.ofNat (c.toNat - 32) else c

/-- Modelled from the spec: ASCII lower-casing of one character
(identity beyond ASCII). -/
def toLowerChar (c : Char) : Char :=
  if 65 ≤ c.toNat ∧ c.toNat ≤ 90 then Char.ofNat (c.toNat + 32) else c

/-- Modelled from the spec: `allUpperWordStyle` of `support/Strings.ts`
(not in `src/`). -/
def allUpperWordStyle (s : String) : String :=
  String.mk (s.toList.map toUpperChar)

/-- Modelled from the spec: `allLowerWordStyle` of `support/Strings.ts`
(not in `src/`). -/
def allLowerWordStyle (s : String) : String :=
  String.mk (s.toList.map toLowerChar)

/-- Modelled from the spec: `firstUpperWordStyle` of
`support/Strings.ts` (not in `src/`): capitalize the first character. -/
def firstUpperWordStyle (s : String) : String :=
  match s.toList with
  | [] => ""
  | c :: cs => String.mk (toUpperChar c :: cs)

/-- The argument block passed to `combineWords` by a naming style:
word legalizer, the four per-word casing styles, the separator, and the
identifier-start predicate. -/
structure CombineArgs where
  legalize : String → String
  firstWordStyle : String → String
  restWordStyle : String → String
  firstAcronymStyle : String → String
  restAcronymStyle : String → String
  separator : String
  isStartCharacter : Nat → Bool

/-- Modelled from the spec: `combineWords` of `support/Strings.ts` (not
in `src/`): legalize every word, drop words that become empty (falling
back to a fixed word when none survive), apply the per-role casing
styles, join with the separator, and repair the result with a prefix
when its first character is not a legal identifier start. -/
def combineWords (words : List Word) (args : CombineArgs) : String :=
  let legalized :=
    (words.map (fun w => Word.mk (args.legalize w.word) w.isAcronym)).filter
      (fun w => w.word ≠ "")
  let legalized :=
    if legalized.isEmpty then [Word.mk (args.legalize "empty") false] else legalized
  let styled :=
    match legalized with
    | [] => []
    | w :: ws =>
      (if w.isAcronym then args.firstAcronymStyle w.word else args.firstWordStyle w.word) ::
        ws.map (fun w2 =>
          if w2.isAcronym then args.restAcronymStyle w2.word else args.restWordStyle w2.word)
  let name := String.intercalate args.separator styled
  match name.toList with
  | [] => name
  | c :: _ =>
    if args.isStartCharacter c.toNat then name
    else args.firstWordStyle "the" ++ args.separator ++ name

/-- The argument block `classNameStyle` (Python.ts lines 204-216) passes
to `combineWords`: version-selected legalizer, upper-camel casing,
empty separator, version-selected start predicate. -/
def classNameStyleArgs (version : PythonVersion) : CombineArgs :=
  { legalize := match version with | PythonVersion.v2 => legalizeName2 | PythonVersion.v3 => legalizeName3
    firstWordStyle := firstUpperWordStyle
    restWordStyle := firstUpperWordStyle
    firstAcronymStyle := allUpperWordStyle
    restAcronymStyle := allUpperWordStyle
    separator := ""
    isStartCharacter := match version with | PythonVersion.v2 => isStartCharacter2 | PythonVersion.v3 => isStartCharacter3 }

/-- `classNameStyle` (Python.ts lines 204-216). -/
def classNameStyle (version : PythonVersion) (original : String) : String :=
  combineWords (splitIntoWords original) (classNameStyleArgs version)

/-- The argument block `snakeNameStyle` (Python.ts lines 218-231) passes
to `combineWords`: version-selected legalizer, uniform upper or lower
casing for every word, underscore separator, and — unconditionally —
the version-3 start predicate. -/
def snakeNameStyleArgs (version : PythonVersion) (uppercase : Bool) : CombineArgs :=
  let wordStyle := if uppercase then allUpperWordStyle else allLowerWordStyle
  { legalize := match version with | PythonVersion.v2 => legalizeName2 | PythonVersion.v3 => legalizeName3
    firstWordStyle := wordStyle
    restWordStyle := wordStyle
    firstAcronymStyle := wordStyle
    restAcronymStyle := wordStyle
    separator := "_"
    isStartCharacter := isStartCharacter3 }

/-- `snakeNameStyle` (Python.ts lines 218-231). -/
def snakeNameStyle (version : PythonVersion) (original : String) (uppercase : Bool) : String :=
  combineWords (splitIntoWords original) (snakeNameStyleArgs version uppercase)

/-- Model of the abstract type graph (the `Type` hierarchy consumed via
`matchType`): one constructor per branch of the `matchType` calls in
Python.ts.  Classes and enums carry the rendered identifier the naming
surface assigns them (Modelled from the spec: the namespace/name-pool
surface returns a collision-free source-code token) together with their
structural children; transformed string types carry their kind. -/
inductive STy where
  | anyT
  | nullT
  | boolT
  | integerT
  | doubleT
  | strT
  | arrayT (items : STy)
  | classT (name : String) (props : List (String × STy))
  | mapT (values : STy)
  | enumT (name : String) (cases : List String)
  | unionT (members : List STy)
  | transformedT (kind : String)

/-- The kind string of a type, as used by the `switch` statements of the
transformer compiler. -/
def STy.kind : STy → String
  | STy.anyT => "any"
  | STy.nullT => "null"
  | STy.boolT => "bool"
  | STy.integerT => "integer"
  | STy.doubleT => "double"
  | STy.strT => "string"
  | STy.arrayT _ => "array"
  | STy.classT _ _ => "class"
  | STy.mapT _ => "map"
  | STy.enumT _ _ => "enum"
  | STy.unionT _ => "union"
  | STy.transformedT kind => kind

/-- Model of the transformer-node tree of `Transformers.ts` (not in
`src/`; shape taken from the fields Python.ts reads: `transformers`,
`consumer`, `sourceType`, `memberType`, `transformer`).  Every node
carries its declared source type. -/
inductive Transformer where
  | decodingChoice (sourceType : STy) (transformers : List Transformer)
  | choice (sourceType : STy) (transformers : List Transformer)
  | decoding (sourceType : STy) (consumer : Option Transformer)
  | encoding (sourceType : STy)
  | unionInstantiation (sourceType : STy)
  | unionMemberMatch (sourceType : STy) (memberType : STy) (transformer : Transformer)
  | parseString (sourceType : STy) (consumer : Option Transformer)
  | stringify (sourceType : STy) (consumer : Option Transformer)

/-- The declared source type of a transformer node. -/
def Transformer.sourceType : Transformer → STy
  | Transformer.decodingChoice st _ => st
  | Transformer.choice st _ => st
  | Transformer.decoding st _ => st
  | Transformer.encoding st => st
  | Transformer.unionInstantiation st => st
  | Transformer.unionMemberMatch st _ _ => st
  | Transformer.parseString st _ => st
  | Transformer.stringify st _ => st

/-- Modelled from the spec: `arrayIntercalate` of `collection-utils`
(external): the items interleaved with the separator. -/
def arrayIntercalate (sep : String) (items : List Sourcelike) : Sourcelike :=
  Sourcelike.arr (List.intersperse (Sourcelike.str sep) items)

/-- `conv` (Python.ts lines 824-829): the emitted name of a converter
function (the effect of recording the converter in the
`_deserializerFunctions` set only decides which support functions are
emitted and does not change the returned fragment, so it is not
modelled).  Converter kinds contain at most one hyphen, so replacing
every hyphen coincides with the source's single replacement. -/
def conv (cf : String) : Sourcelike :=
  let name := cf.replace "-" "_"
  if cf.startsWith "from-" || cf.startsWith "to-" || cf.startsWith "is-" then
    Sourcelike.str name
  else
    Sourcelike.arr [Sourcelike.str "from_", Sourcelike.str name]

/-- `convFn` (Python.ts lines 831-836): compose the input with the named
converter as a pending lambda. -/
def convFn (cf : String) (arg : ValueOrLambda) : Except String ValueOrLambda :=
  composeVol arg { lambda := Option.some (singleWord [conv cf]), value := Option.none }

/-- `typeObject` (Python.ts lines 838-863): the runtime type descriptor
for `is_type` checks; kinds with no descriptor panic. -/
def typeObject : STy → Except String Sourcelike
  | STy.anyT => Except.error "No type object for any"
  | STy.nullT => Except.ok (Sourcelike.str "type(None)")
  | STy.boolT => Except.ok (Sourcelike.str "bool")
  | STy.integerT => Except.ok (Sourcelike.str "int")
  | STy.doubleT => Except.ok (Sourcelike.str "float")
  | STy.strT => Except.ok (Sourcelike.str "str")
  | STy.arrayT _ => Except.ok (Sourcelike.str "List")
  | STy.classT name _ => Except.ok (Sourcelike.str name)
  | STy.mapT _ => Except.ok (Sourcelike.str "dict")
  | STy.enumT name _ => Except.ok (Sourcelike.str name)
  | STy.unionT _ => Except.error "No type object for union"
  | STy.transformedT kind =>
    if kind == "date-time" then Except.ok (Sourcelike.str "datetime")
    else Except.error ("No type object for " ++ kind)

mutual

/-- `deserializer` (Python.ts lines 947-1012): the expression-level
deserializer, dispatching on the type kind exactly as the `matchType`
call does.  In this embedding types carry no transformation attribute —
transformer trees enter through `transformer` directly — so the
`transformationForType` guard at the head of the source function is
vacuous and omitted. -/
def deserializerSyn (value : ValueOrLambda) (t : STy) : Except String ValueOrLambda :=
  match t with
  | STy.anyT => Except.ok value
  | STy.nullT => convFn "none" value
  | STy.boolT => convFn "bool" value
  | STy.integerT => convFn "int" value
  | STy.doubleT => convFn "from-float" value
  | STy.strT => convFn "str" value
  | STy.arrayT items => do
      let inner ← deserializerSyn identity items
      composeFn value (fun v => Sourcelike.arr
        [conv "list", Sourcelike.str "(", (makeLambda inner).source, Sourcelike.str ", ",
         v, Sourcelike.str ")"])
  | STy.classT name _ =>
      composeVol value
        { lambda := Option.some (singleWord [Sourcelike.str name, Sourcelike.str ".from_dict"])
          value := Option.none }
  | STy.mapT values => do
      let inner ← deserializerSyn identity values
      composeFn value (fun v => Sourcelike.arr
        [conv "dict", Sourcelike.str "(", (makeLambda inner).source, Sourcelike.str ", ",
         v, Sourcelike.str ")"])
  | STy.enumT name _ =>
      composeVol value
        { lambda := Option.some (singleWord [Sourcelike.str name]), value := Option.none }
  | STy.unionT members => do
      let deserializers ← desSynList members
      composeFn value (fun v => Sourcelike.arr
        [conv "union", Sourcelike.str "([", arrayIntercalate ", " deserializers,
         Sourcelike.str "], ", v, Sourcelike.str ")"])
  | STy.transformedT kind =>
      if kind == "date-time" then convFn "from-datetime" value
      else Except.error ("Transformed type " ++ kind ++ " not supported")

/-- The branch lambdas of the union deserializer (the `map` on
Python.ts lines 996-998). -/
def desSynList : List STy → Except String (List Sourcelike)
  | [] => Except.ok []
  | m :: ms => do
      let d ← deserializerSyn identity m
      let ds ← desSynList ms
      Except.ok ((makeLambda d).source :: ds)

end

mutual

/-- `serializer` (Python.ts lines 1014-1081), embedded like
`deserializerSyn` (the `transformationForType` guard is vacuous here for
the same reason). -/
def serializerSyn (value : ValueOrLambda) (t : STy) : Except String ValueOrLambda :=
  match t with
  | STy.anyT => Except.ok value
  | STy.nullT => convFn "none" value
  | STy.boolT => convFn "bool" value
  | STy.integerT => convFn "int" value
  | STy.doubleT => convFn "to-float" value
  | STy.strT => convFn "str" value
  | STy.arrayT items => do
      let inner ← serializerSyn identity items
      composeFn value (fun v => Sourcelike.arr
        [conv "list", Sourcelike.str "(", (makeLambda inner).source, Sourcelike.str ", ",
         v, Sourcelike.str ")"])
  | STy.classT name _ =>
      composeFn value (fun v => Sourcelike.arr
        [conv "to-class", Sourcelike.str "(", Sourcelike.str name, Sourcelike.str ", ",
         v, Sourcelike.str ")"])
  | STy.mapT values => do
      let inner ← serializerSyn identity values
      composeFn value (fun v => Sourcelike.arr
        [conv "dict", Sourcelike.str "(", (makeLambda inner).source, Sourcelike.str ", ",
         v, Sourcelike.str ")"])
  | STy.enumT name _ =>
      composeFn value (fun v => Sourcelike.arr
        [conv "to-enum", Sourcelike.str "(", Sourcelike.str name, Sourcelike.str ", ",
         v, Sourcelike.str ")"])
  | STy.unionT members => do
      let serializers ← serSynList members
      composeFn value (fun v => Sourcelike.arr
        [conv "union", Sourcelike.str "([", arrayIntercalate ", " serializers,
         Sourcelike.str "], ", v, Sourcelike.str ")"])
  | STy.transformedT kind =>
      if kind == "date-time" then
        composeFn value (fun v => Sourcelike.arr [v, Sourcelike.str ".isoformat()"])
      else Except.error ("Transformed type " ++ kind ++ " not supported")

/-- The branch lambdas of the union serializer (the `map` on
Python.ts lines 1063-1065). -/
def serSynList : List STy → Except String (List Sourcelike)
  | [] => Except.ok []
  | m :: ms => do
      let d ← serializerSyn identity m
      let ds ← serSynList ms
      Except.ok ((makeLambda d).source :: ds)

end

/-- The union-try call of a choice node (Python.ts lines 882-885): the
input composed with `from_union([lambda1, ..., lambdan], v)`. -/
def unionCall (lambdas : List Sourcelike) (input : ValueOrLambda) :
    Except String ValueOrLambda :=
  composeFn input (fun v => Sourcelike.arr
    [conv "union", Sourcelike.str "([", arrayIntercalate ", " lambdas,
     Sourcelike.str "], ", v, Sourcelike.str ")"])

/-- The `is_type` check of `isType` (Python.ts lines 873-878), given the
already-computed type descriptor. -/
def isTypeCall (tObj : Sourcelike) (input : ValueOrLambda) :
    Except String ValueOrLambda :=
  composeFn input (fun v => Sourcelike.arr
    [conv "is-type", Sourcelike.str "(", tObj, Sourcelike.str ", ", v, Sourcelike.str ")"])

/-- The `switch` of the parse-string case (Python.ts lines 898-917): the
compiled value for the consumer's immediate target kind — plain
`int(...)` for integers, the enum type's deserializer for enums, the
`from_datetime` primitive for date-times, and a panic for every other
kind. -/
def parseStringVol (input : ValueOrLambda) (immediate : STy) :
    Except String ValueOrLambda :=
  if immediate.kind == "integer" then
    composeFn input (fun v => Sourcelike.arr
      [Sourcelike.str "int(", v, Sourcelike.str ")"])
  else if immediate.kind == "enum" then
    deserializerSyn input immediate
  else if immediate.kind == "date-time" then
    convFn "from-datetime" input
  else
    Except.error ("Parsing of " ++ immediate.kind ++ " in a transformer is not supported")

/-- The `switch` of the stringify case (Python.ts lines 919-941). -/
def stringifyVol (input : ValueOrLambda) (sourceType : STy) :
    Except String ValueOrLambda :=
  if sourceType.kind == "integer" then
    composeFn input (fun v => Sourcelike.arr
      [Sourcelike.str "str(", v, Sourcelike.str ")"])
  else if sourceType.kind == "enum" then
    serializerSyn input sourceType
  else if sourceType.kind == "date-time" then
    composeFn input (fun v => Sourcelike.arr [v, Sourcelike.str ".isoformat()"])
  else
    Except.error ("Parsing of " ++ sourceType.kind ++ " in a transformer is not supported")

mutual

/-- `transformer` (Python.ts lines 865-945): compiles a transformer node
applied to the input value-or-lambda.  The local `consume` helper is
inlined as the trailing `match` on the consumer of each case; the
non-recursive payload of each case lives in `unionCall`, `isTypeCall`,
`parseStringVol` and `stringifyVol` above. -/
def transformer (input : ValueOrLambda) (xfer : Transformer) (targetType : STy) :
    Except String ValueOrLambda :=
  match xfer with
  | Transformer.decodingChoice _ transformers => do
      let lambdas ← transList transformers targetType
      unionCall lambdas input
  | Transformer.choice _ transformers => do
      let lambdas ← transList transformers targetType
      unionCall lambdas input
  | Transformer.decoding sourceType consumer => do
      let vol ← deserializerSyn input sourceType
      match consumer with
      | Option.none => Except.ok vol
      | Option.some c => transformer vol c targetType
  | Transformer.encoding sourceType => serializerSyn input sourceType
  | Transformer.unionInstantiation _ => Except.ok input
  | Transformer.unionMemberMatch _ memberType tr => do
      let tObj ← typeObject memberType
      let vol ← isTypeCall tObj input
      transformer vol tr targetType
  | Transformer.parseString _ consumer => do
      let vol ← parseStringVol input (match consumer with
        | Option.none => targetType
        | Option.some c => c.sourceType)
      match consumer with
      | Option.none => Except.ok vol
      | Option.some c => transformer vol c targetType
  | Transformer.stringify sourceType consumer => do
      let vol ← stringifyVol input sourceType
      match consumer with
      | Option.none => Except.ok vol
      | Option.some c => transformer vol c targetType

/-- The branch lambdas of a choice node (the `map` on Python.ts line
881): each branch compiled from the neutral `identity` start and turned
into a lambda. -/
def transList (ts : List Transformer) (targetType : STy) :
    Except String (List Sourcelike) :=
  match ts with
  | [] => Except.ok []
  | x :: xs => do
      let vol ← transformer identity x targetType
      let rest ← transList xs targetType
      Except.ok ((makeLambda vol).source :: rest)

end

/-- The `consume` helper of `transformer` (Python.ts lines 866-871) as a
standalone function: pass the compiled value to the node's consumer, or
return it unchanged when there is none. -/
def consumeD (consumer : Option Transformer) (vol : ValueOrLambda) (targetType : STy) :
    Except String ValueOrLambda :=
  match consumer with
  | Option.none => Except.ok vol
  | Option.some c => transformer vol c targetType

/-!
Runtime semantics of the generated code.  The converter primitives below
are translations of the Python function bodies emitted by
`emitNoneConverter` ... `emitIsTypeConverter` and `emitUnionConverter`
(Python.ts lines 620-789), whose source text appears verbatim in the
renderer; a raised Python exception (failed `assert`, `ValueError`, ...)
is embedded as `Except.error`.
-/

/-- The generic decoded-JSON-value shape together with the runtime
values the generated code produces from it: `objV` is an instance of a
generated class (its deserialized property values in property order),
`enumV` a member of a generated enum, `dtV` a datetime object carried as
its canonical ISO 8601 rendering. -/
inductive PyValue where
  | noneV
  | boolV (b : Bool)
  | intV (n : Int)
  | floatV (q : Rat)
  | strV (s : String)
  | listV (elems : List PyValue)
  | dictV (entries : List (String × PyValue))
  | objV (className : String) (fields : List PyValue)
  | enumV (enumName : String) (value : String)
  | dtV (iso : String)

/-- Semantics of the emitted `from_none` (Python.ts lines 620-630):
`assert x is None; return x`. -/
def from_noneSem : PyValue → Except String PyValue
  | PyValue.noneV => Except.ok PyValue.noneV
  | _ => Except.error "assert x is None"

/-- Semantics of the emitted `from_bool` (Python.ts lines 632-637). -/
def from_boolSem : PyValue → Except String PyValue
  | PyValue.boolV b => Except.ok (PyValue.boolV b)
  | _ => Except.error "assert isinstance(x, bool)"

/-- Semantics of the emitted `from_int` (Python.ts lines 639-644):
accepts integers that are not booleans. -/
def from_intSem : PyValue → Except String PyValue
  | PyValue.intV n => Except.ok (PyValue.intV n)
  | _ => Except.error "assert isinstance(x, int) and not isinstance(x, bool)"

/-- Semantics of the emitted `from_float` (Python.ts lines 646-651):
accepts floats and non-boolean ints and returns `float(x)`. -/
def from_floatSem : PyValue → Except String PyValue
  | PyValue.intV n => Except.ok (PyValue.floatV (n : Rat))
  | PyValue.floatV q => Except.ok (PyValue.floatV q)
  | _ => Except.error "assert isinstance(x, (float, int)) and not isinstance(x, bool)"

/-- Semantics of the emitted `to_float` (Python.ts lines 653-658):
accepts floats only. -/
def to_floatSem : PyValue → Except String PyValue
  | PyValue.floatV q => Except.ok (PyValue.floatV q)
  | _ => Except.error "assert isinstance(x, float)"

/-- Semantics of the emitted `from_str` (Python.ts lines 660-666). -/
def from_strSem : PyValue → Except String PyValue
  | PyValue.strV s => Except.ok (PyValue.strV s)
  | _ => Except.error "assert isinstance(x, str)"

/-- Modelled from the spec: the date-time parse primitive the emitted
`from_datetime` delegates to (`dateutil.parser.parse`, external to the
repository) together with the datetime object it returns.  The spec
describes it as the dedicated date-time parse primitive whose inverse is
ISO-8601 stringification, so the model accepts exactly the canonical
`YYYY-MM-DDTHH:MM:SS` renderings and keeps them unchanged. -/
def parseDatetime (s : String) : Option String :=
  let cs := s.toList
  let digitAt := fun (i : Nat) => match cs.get? i with
    | Option.some c => decide (48 ≤ c.toNat ∧ c.toNat ≤ 57)
    | Option.none => false
  let litAt := fun (i : Nat) (ch : Char) => cs.get? i == Option.some ch
  if (decide (cs.length = 19) && digitAt 0 && digitAt 1 && digitAt 2 && digitAt 3 &&
      litAt 4 '-' && digitAt 5 && digitAt 6 && litAt 7 '-' && digitAt 8 && digitAt 9 &&
      litAt 10 'T' && digitAt 11 && digitAt 12 && litAt 13 ':' && digitAt 14 &&
      digitAt 15 && litAt 16 ':' && digitAt 17 && digitAt 18) = true then
    Option.some s
  else
    Option.none

/-- Semantics of the emitted `from_datetime` (Python.ts lines 756-770):
parse a string into a datetime object; anything unparseable raises. -/
def from_datetimeSem : PyValue → Except String PyValue
  | PyValue.strV s =>
    (parseDatetime s).elim
      (Except.error "dateutil.parser.parse: could not parse")
      (fun d => Except.ok (PyValue.dtV d))
  | _ => Except.error "dateutil.parser.parse: expected a string"

/-- Modelled from the spec: the value of a non-empty all-digit character
run, the core of Python's plain numeric parse. -/
def digitsVal? (cs : List Char) : Option Nat :=
  if cs.isEmpty then Option.none
  else if cs.all (fun c => decide (48 ≤ c.toNat ∧ c.toNat ≤ 57)) then
    Option.some (cs.foldl (fun acc c => acc * 10 + (c.toNat - 48)) 0)
  else Option.none

/-- Modelled from the spec: the plain numeric parse `int(...)` the
parse-string step composes for integer targets — an optional sign
followed by decimal digits (leading zeros accepted, so the parse is not
injective on its accepted strings); anything else raises `ValueError`. -/
def pyIntOfString? (s : String) : Option Int :=
  let cs := s.toList
  if cs.take 1 = ['-'] then (digitsVal? (cs.drop 1)).map (fun n => -(n : Int))
  else if cs.take 1 = ['+'] then (digitsVal? (cs.drop 1)).map (fun n => (n : Int))
  else (digitsVal? cs).map (fun n => (n : Int))

/-- Modelled from the spec: Python's `str(...)` on an integer renders
its decimal form, which coincides with Lean's rendering of `Int`. -/
def pyStrOfInt (n : Int) : String := toString n

/-- Modelled from the spec: the decode pipeline the type graph attaches
to `integer-string` transformed types (`transformationForType` of
`Transformers.ts`, not in `src/`): a string decode leaf chained into a
parse-string step with integer target, compiling to `int(from_str(x))`
(Python.ts lines 898-908 for the parse-string composition). -/
def parseIntStringSem (v : PyValue) : Except String PyValue :=
  match v with
  | PyValue.strV s =>
    (pyIntOfString? s).elim
      (Except.error "ValueError: invalid literal for int")
      (fun n => Except.ok (PyValue.intV n))
  | _ => Except.error "assert isinstance(x, str)"

/-- Modelled from the spec: the reverse (stringify) pipeline of
`integer-string` transformed types, `from_str(str(x))` — integer to
decimal string (Python.ts lines 922-927 for the stringify composition);
the pipeline is specified on integer inputs. -/
def stringifyIntSem (v : PyValue) : Except String PyValue :=
  match v with
  | PyValue.intV n => Except.ok (PyValue.strV (pyStrOfInt n))
  | _ => Except.error "stringify: expected an integer"

/-- Semantics of the emitted `from_union` (Python.ts lines 746-754):
try each branch in order, return the first success, swallow branch
failures, and fail the final `assert False` when every branch raises.
Stated generically: a branch is any function that either succeeds or
raises. -/
def from_union {α β : Type} (fs : List (α → Except String β)) (x : α) : Except String β :=
  match fs with
  | [] => Except.error "assert False"
  | f :: rest =>
    match f x with
    | Except.ok y => Except.ok y
    | Except.error _ => from_union rest x

/-- The `obj.get(jsonName)` lookup of the emitted `from_dict` method
(Python.ts line 1096): the entry's value, or Python's `None` when the
key is absent. -/
def dictGet (key : String) (entries : List (String × PyValue)) : PyValue :=
  match List.lookup key entries with
  | Option.some v => v
  | Option.none => PyValue.noneV

mutual

/-- Semantics of the generated deserializer for a type: the composition
of emitted converter primitives that `deserializer` (Python.ts lines
947-1012) builds, evaluated on a runtime value.  Case by case: `any` is
the identity, primitives call their `from_` converter, arrays map
`from_list`, classes call the generated `Klass.from_dict` (assert dict,
deserialize each property from `obj.get(jsonName)`, construct the
instance), maps map `from_dict`, enums call the enum constructor (value
lookup raising `ValueError` on a miss), and unions try members in order
via `from_union`.  Transformed string types take the
`transformationForType` delegation at the head of the source function
(Python.ts lines 948-951): the backend's two supported transformed kinds
compile to `from_datetime(x)` for `date-time` and to `int(from_str(x))`
for `integer-string` (the attached transformer trees are modelled from
the spec); any other transformed kind panics. -/
def deserializeSem (t : STy) (v : PyValue) : Except String PyValue :=
  match t with
  | STy.anyT => Except.ok v
  | STy.nullT => from_noneSem v
  | STy.boolT => from_boolSem v
  | STy.integerT => from_intSem v
  | STy.doubleT => from_floatSem v
  | STy.strT => from_strSem v
  | STy.arrayT items =>
    match v with
    | PyValue.listV l => do
        let l2 ← desListSem items l
        Except.ok (PyValue.listV l2)
    | _ => Except.error "assert isinstance(x, list)"
  | STy.classT name props =>
    match v with
    | PyValue.dictV entries => do
        let fields ← desPropsSem props entries
        Except.ok (PyValue.objV name fields)
    | _ => Except.error "assert isinstance(obj, dict)"
  | STy.mapT values =>
    match v with
    | PyValue.dictV entries => do
        let entries2 ← desEntriesSem values entries
        Except.ok (PyValue.dictV entries2)
    | _ => Except.error "assert isinstance(x, dict)"
  | STy.enumT name cases =>
    match v with
    | PyValue.strV s =>
      if cases.contains s then Except.ok (PyValue.enumV name s)
      else Except.error "ValueError: not a valid enum value"
    | _ => Except.error "ValueError: not a valid enum value"
  | STy.unionT members => desUnionSem members v
  | STy.transformedT kind =>
    if kind == "date-time" then from_datetimeSem v
    else if kind == "integer-string" then parseIntStringSem v
    else Except.error ("Transformed type " ++ kind ++ " not supported")

/-- Element-wise deserialization of a list (the `[f(y) for y in x]` of
the emitted `from_list`). -/
def desListSem (t : STy) : List PyValue → Except String (List PyValue)
  | [] => Except.ok []
  | x :: xs => do
      let y ← deserializeSem t x
      let ys ← desListSem t xs
      Except.ok (y :: ys)

/-- Property-wise deserialization of a class instance (the body of the
emitted `from_dict` static method, Python.ts lines 1089-1102). -/
def desPropsSem : List (String × STy) → List (String × PyValue) → Except String (List PyValue)
  | [], _ => Except.ok []
  | (jn, ty) :: ps, entries => do
      let f ← deserializeSem ty (dictGet jn entries)
      let fs ← desPropsSem ps entries
      Except.ok (f :: fs)

/-- Value-wise deserialization of a map (the comprehension of the
emitted `from_dict` converter). -/
def desEntriesSem (t : STy) : List (String × PyValue) → Except String (List (String × PyValue))
  | [] => Except.ok []
  | (k, v) :: rest => do
      let w ← deserializeSem t v
      let rest2 ← desEntriesSem t rest
      Except.ok ((k, w) :: rest2)

/-- Union deserialization: the emitted `from_union` specialized to the
member deserializers, in member order. -/
def desUnionSem : List STy → PyValue → Except String PyValue
  | [], _ => Except.error "assert False"
  | m :: ms, v =>
    match deserializeSem m v with
    | Except.ok w => Except.ok w
    | Except.error _ => desUnionSem ms v

end

mutual

/-- Semantics of the generated serializer for a type: the composition of
emitted primitives that `serializer` (Python.ts lines 1014-1081) builds.
`any` is the identity, `double` uses `to_float` (floats only), classes
use `to_class` (assert the instance's class, then its `to_dict` method,
Python.ts lines 1105-1112), enums use `to_enum` (assert membership,
return the raw value), and unions try members via `from_union`.
Transformed string types take the `transformationForType` delegation at
the head of the source function (Python.ts lines 1015-1018) into the
reverse transformer: `date-time` calls `.isoformat()` (raising on
non-datetime values) and `integer-string` stringifies via
`from_str(str(x))` (the attached reverse trees are modelled from the
spec); any other transformed kind panics. -/
def serializeSem (t : STy) (v : PyValue) : Except String PyValue :=
  match t with
  | STy.anyT => Except.ok v
  | STy.nullT => from_noneSem v
  | STy.boolT => from_boolSem v
  | STy.integerT => from_intSem v
  | STy.doubleT => to_floatSem v
  | STy.strT => from_strSem v
  | STy.arrayT items =>
    match v with
    | PyValue.listV l => do
        let l2 ← serListSem items l
        Except.ok (PyValue.listV l2)
    | _ => Except.error "assert isinstance(x, list)"
  | STy.classT name props =>
    match v with
    | PyValue.objV cn fields =>
      if cn == name then
        if fields.length == props.length then do
          let entries ← serPropsSem props fields
          Except.ok (PyValue.dictV entries)
        else Except.error "generated to_dict: field arity mismatch"
      else Except.error "assert isinstance(x, c)"
    | _ => Except.error "assert isinstance(x, c)"
  | STy.mapT values =>
    match v with
    | PyValue.dictV entries => do
        let entries2 ← serEntriesSem values entries
        Except.ok (PyValue.dictV entries2)
    | _ => Except.error "assert isinstance(x, dict)"
  | STy.enumT name _ =>
    match v with
    | PyValue.enumV en s =>
      if en == name then Except.ok (PyValue.strV s)
      else Except.error "assert isinstance(x, c)"
    | _ => Except.error "assert isinstance(x, c)"
  | STy.unionT members => serUnionSem members v
  | STy.transformedT kind =>
    if kind == "date-time" then
      match v with
      | PyValue.dtV d => Except.ok (PyValue.strV d)
      | _ => Except.error "AttributeError: isoformat"
    else if kind == "integer-string" then stringifyIntSem v
    else Except.error ("Transformed type " ++ kind ++ " not supported")

/-- Element-wise serialization of a list. -/
def serListSem (t : STy) : List PyValue → Except String (List PyValue)
  | [] => Except.ok []
  | x :: xs => do
      let y ← serializeSem t x
      let ys ← serListSem t xs
      Except.ok (y :: ys)

/-- Property-wise serialization of a class instance (the body of the
emitted `to_dict` method, Python.ts lines 1105-1112): one entry per
declared property, in property order. -/
def serPropsSem : List (String × STy) → List PyValue → Except String (List (String × PyValue))
  | [], _ => Except.ok []
  | (jn, ty) :: ps, fields =>
    match fields with
    | [] => Except.error "generated to_dict: field arity mismatch"
    | f :: fs => do
        let u ← serializeSem ty f
        let rest ← serPropsSem ps fs
        Except.ok ((jn, u) :: rest)

/-- Value-wise serialization of a map. -/
def serEntriesSem (t : STy) : List (String × PyValue) → Except String (List (String × PyValue))
  | [] => Except.ok []
  | (k, v) :: rest => do
      let w ← serializeSem t v
      let rest2 ← serEntriesSem t rest
      Except.ok ((k, w) :: rest2)

/-- Union serialization: the emitted `from_union` specialized to the
member serializers, in member order. -/
def serUnionSem : List STy → PyValue → Except String PyValue
  | [], _ => Except.error "assert False"
  | m :: ms, v =>
    match serializeSem m v with
    | Except.ok w => Except.ok w
    | Except.error _ => serUnionSem ms v

end

/-- Modelled from the spec: the rational a Python boolean denotes under
`==` (booleans are the integers 0 and 1 in the generated code's
runtime). -/
def ratOfBool (b : Bool) : Rat := if b then 1 else 0

/-- Every key of `a` also occurs among the keys of `b`. -/
def keysIncl (a b : List (String × PyValue)) : Bool :=
  a.all (fun p => b.any (fun q => q.1 == p.1))

mutual

/-- Modelled from the spec: Python's `==` on the values the generated
code handles — numeric cross-type equality between booleans, ints and
floats (`3 == 3.0` is true at runtime), element-wise lists, dicts as
finite maps (key sets equal and values equal under lookup), and
structural equality on the remaining shapes. -/
def pyEq : PyValue → PyValue → Bool
  | PyValue.noneV, PyValue.noneV => true
  | PyValue.boolV a, PyValue.boolV b => a == b
  | PyValue.boolV a, PyValue.intV n => decide (ratOfBool a = (n : Rat))
  | PyValue.boolV a, PyValue.floatV q => decide (ratOfBool a = q)
  | PyValue.intV m, PyValue.boolV b => decide ((m : Rat) = ratOfBool b)
  | PyValue.intV m, PyValue.intV n => decide (m = n)
  | PyValue.intV m, PyValue.floatV q => decide ((m : Rat) = q)
  | PyValue.floatV p, PyValue.boolV b => decide (p = ratOfBool b)
  | PyValue.floatV p, PyValue.intV n => decide (p = (n : Rat))
  | PyValue.floatV p, PyValue.floatV q => decide (p = q)
  | PyValue.strV a, PyValue.strV b => a == b
  | PyValue.listV a, PyValue.listV b => pyEqList a b
  | PyValue.dictV a, PyValue.dictV b => keysIncl a b && keysIncl b a && pyEqLookup a b
  | PyValue.objV c f, PyValue.objV c2 f2 => c == c2 && pyEqList f f2
  | PyValue.enumV e v, PyValue.enumV e2 v2 => e == e2 && v == v2
  | PyValue.dtV a, PyValue.dtV b => a == b
  | _, _ => false

/-- Element-wise `pyEq` on lists of equal length. -/
def pyEqList : List PyValue → List PyValue → Bool
  | [], [] => true
  | x :: xs, y :: ys => pyEq x y && pyEqList xs ys
  | _, _ => false

/-- Every entry of the first dict is `pyEq` to the second dict's value
under its key. -/
def pyEqLookup : List (String × PyValue) → List (String × PyValue) → Bool
  | [], _ => true
  | (k, v) :: rest, b =>
    (match List.lookup k b with
     | Option.some w => pyEq v w
     | Option.none => false) && pyEqLookup rest b

end

/-- Pairwise-distinct strings (used for dict keys and class property
names). -/
def nodupStrings : List String → Bool
  | [] => true
  | s :: rest => !(rest.contains s) && nodupStrings rest

/-- The keys of a dict value are pairwise distinct (true of every dict a
Python runtime can actually hold). -/
def nodupKeys (l : List (String × PyValue)) : Bool :=
  nodupStrings (l.map Prod.fst)

mutual

/-- A value is representable in a Python runtime: every dict it contains
has pairwise-distinct keys. -/
def wfValue : PyValue → Bool
  | PyValue.listV l => wfValueList l
  | PyValue.dictV entries => nodupKeys entries && wfValueEntries entries
  | PyValue.objV _ fields => wfValueList fields
  | _ => true

/-- `wfValue` on every element. -/
def wfValueList : List PyValue → Bool
  | [] => true
  | x :: xs => wfValue x && wfValueList xs

/-- `wfValue` on every entry value. -/
def wfValueEntries : List (String × PyValue) → Bool
  | [] => true
  | (_, v) :: rest => wfValue v && wfValueEntries rest

end

mutual

/-- Modelled from the spec: a generic decoded value matches a type's
shape — the conversion contract of §6 of the spec.  `any` matches every
runtime-representable value, `double` matches the ints and floats its
decode primitive accepts, classes match dicts carrying exactly the
declared property keys with matching values, maps match dicts
value-wise, enums match their case strings, unions match any member, and
the transformed string kinds match the strings their decode pipelines
accept: parseable date-time strings for `date-time`, strings the plain
numeric parse accepts for `integer-string`. -/
def matchesShape : STy → PyValue → Bool
  | STy.anyT, v => wfValue v
  | STy.nullT, PyValue.noneV => true
  | STy.nullT, _ => false
  | STy.boolT, PyValue.boolV _ => true
  | STy.boolT, _ => false
  | STy.integerT, PyValue.intV _ => true
  | STy.integerT, _ => false
  | STy.doubleT, PyValue.intV _ => true
  | STy.doubleT, PyValue.floatV _ => true
  | STy.doubleT, _ => false
  | STy.strT, PyValue.strV _ => true
  | STy.strT, _ => false
  | STy.arrayT e, PyValue.listV l => shapeList e l
  | STy.arrayT _, _ => false
  | STy.classT _ props, PyValue.dictV entries =>
    nodupKeys entries &&
      entries.all (fun p => props.any (fun q => q.1 == p.1)) &&
      shapeProps props entries
  | STy.classT _ _, _ => false
  | STy.mapT vt, PyValue.dictV entries => nodupKeys entries && shapeEntries vt entries
  | STy.mapT _, _ => false
  | STy.enumT _ cases, PyValue.strV s => cases.contains s
  | STy.enumT _ _, _ => false
  | STy.unionT members, v => shapeUnion members v
  | STy.transformedT kind, PyValue.strV s =>
    (kind == "date-time" && (parseDatetime s).isSome) ||
      (kind == "integer-string" && (pyIntOfString? s).isSome)
  | STy.transformedT _, _ => false

/-- `matchesShape` on every element of a list. -/
def shapeList (e : STy) : List PyValue → Bool
  | [] => true
  | x :: xs => matchesShape e x && shapeList e xs

/-- Every declared property key is present and its value matches the
property's type. -/
def shapeProps : List (String × STy) → List (String × PyValue) → Bool
  | [], _ => true
  | (jn, ty) :: ps, entries =>
    (match List.lookup jn entries with
     | Option.some w => matchesShape ty w
     | Option.none => false) && shapeProps ps entries

/-- `matchesShape` on every entry value of a map. -/
def shapeEntries (vt : STy) : List (String × PyValue) → Bool
  | [] => true
  | (_, w) :: rest => matchesShape vt w && shapeEntries vt rest

/-- Some member's shape matches. -/
def shapeUnion : List STy → PyValue → Bool
  | [], _ => false
  | m :: ms, v => matchesShape m v || shapeUnion ms v

end

mutual

/-- Structural well-formedness of a type from the type graph: the
property names of every class are pairwise distinct (JSON object keys
and the naming surface guarantee this upstream). -/
def wfTy : STy → Bool
  | STy.arrayT e => wfTy e
  | STy.classT _ props => nodupStrings (props.map Prod.fst) && wfTyProps props
  | STy.mapT v => wfTy v
  | STy.unionT ms => wfTyList ms
  | _ => true

/-- `wfTy` on every property type. -/
def wfTyProps : List (String × STy) → Bool
  | [] => true
  | (_, ty) :: ps => wfTy ty && wfTyProps ps

/-- `wfTy` on every member. -/
def wfTyList : List STy → Bool
  | [] => true
  | m :: ms => wfTy m && wfTyList ms

end

mutual

/-- The type is reachable without unions (the hypothesis of the spec's
round-trip property). -/
def unionFree : STy → Bool
  | STy.arrayT e => unionFree e
  | STy.classT _ props => unionFreeProps props
  | STy.mapT v => unionFree v
  | STy.unionT _ => false
  | _ => true

/-- `unionFree` on every property type. -/
def unionFreeProps : List (String × STy) → Bool
  | [] => true
  | (_, ty) :: ps => unionFree ty && unionFreeProps ps

end

mutual

/-- The type is reachable without `integer-string` transformed strings
(whose generated round trip normalizes the string instead of returning
it unchanged). -/
def noIntStringT : STy → Bool
  | STy.arrayT e => noIntStringT e
  | STy.classT _ props => noIntStringProps props
  | STy.mapT v => noIntStringT v
  | STy.unionT ms => noIntStringList ms
  | STy.transformedT kind => !(kind == "integer-string")
  | _ => true

/-- `noIntStringT` on every property type. -/
def noIntStringProps : List (String × STy) → Bool
  | [] => true
  | (_, ty) :: ps => noIntStringT ty && noIntStringProps ps

/-- `noIntStringT` on every member. -/
def noIntStringList : List STy → Bool
  | [] => true
  | m :: ms => noIntStringT m && noIntStringList ms

end

/-!  Theorems settling the claims.  -/

/-- C1: the composition rule of `compose` for a transformation step.
When the current `ValueOrLambda` carries a concrete value, the result is
a concrete value obtained by applying the step to the (collapsed)
current value and carries no pending function; when it is a pending
function only, the result is a new pending function applying the step
after the old function; and from the neutral start the result is the
step itself wrapped as the new pending function `lambda x: step(x)`. -/
theorem c1_compose_step_cases (input : ValueOrLambda) (f : Sourcelike → Sourcelike) :
    (∀ v, input.value = Option.some v →
      ∃ mv, makeValue input = Except.ok mv ∧
        composeFn input f =
          Except.ok { value := Option.some (f mv), lambda := Option.none }) ∧
    (∀ l, input.value = Option.none → input.lambda = Option.some l →
      composeFn input f = Except.ok
        { lambda := Option.some (multiWord " "
            [Sourcelike.str "lambda x:",
             f (Sourcelike.arr [parenIfNeeded l, Sourcelike.str "(x)"])])
          value := Option.none }) ∧
    (input.value = Option.none → input.lambda = Option.none →
      composeFn input f = Except.ok
        { lambda := Option.some (multiWord " "
            [Sourcelike.str "lambda x:", f (Sourcelike.str "x")])
          value := Option.none }) := by
  obtain ⟨val, lam⟩ := input
  refine ⟨?_, ?_, ?_⟩
  · intro v hv
    simp only [ValueOrLambda.value] at hv
    subst hv
    cases lam with
    | none => exact ⟨v, rfl, rfl⟩
    | some l =>
      exact ⟨Sourcelike.arr [parenIfNeeded l, Sourcelike.str "(", v, Sourcelike.str ")"], rfl, rfl⟩
  · intro l hv hl
    simp only [ValueOrLambda.value] at hv
    simp only [ValueOrLambda.lambda] at hl
    subst hv
    subst hl
    rfl
  · intro hv hl
    simp only [ValueOrLambda.value] at hv
    simp only [ValueOrLambda.lambda] at hl
    subst hv
    subst hl
    rfl

/-- C1 witness: the value case of `c1_compose_step_cases` at a concrete
input. -/
theorem c1_compose_step_cases_witness :
    ∃ mv, makeValue { value := Option.some (Sourcelike.str "s"), lambda := Option.none } =
        Except.ok mv ∧
      composeFn { value := Option.some (Sourcelike.str "s"), lambda := Option.none }
          (fun v => Sourcelike.arr [Sourcelike.str "int(", v, Sourcelike.str ")"]) =
        Except.ok
          { value := Option.some (Sourcelike.arr
              [Sourcelike.str "int(", mv, Sourcelike.str ")"])
            lambda := Option.none } :=
  (c1_compose_step_cases { value := Option.some (Sourcelike.str "s"), lambda := Option.none }
      (fun v => Sourcelike.arr [Sourcelike.str "int(", v, Sourcelike.str ")"])).1
    (Sourcelike.str "s") rfl

/-- C6: collapsing invariants of the value-or-lambda representation.
`makeValue` on a value-and-pending-function representation yields the
pending function applied to the expression; composing two pure lambdas
collapses the function-of-function chain into a single pending lambda
(and no value); and `makeValue` of a pure value returns it unchanged. -/
theorem c6_collapsing :
    (∀ (v : Sourcelike) (l : MultiWord),
      makeValue { value := Option.some v, lambda := Option.some l } =
        Except.ok (Sourcelike.arr [parenIfNeeded l, Sourcelike.str "(", v, Sourcelike.str ")"])) ∧
    (∀ (l1 l2 : MultiWord),
      composeVol { value := Option.none, lambda := Option.some l1 }
          { value := Option.none, lambda := Option.some l2 } =
        Except.ok
          { lambda := Option.some (multiWord ""
              [Sourcelike.str "lambda x: ", parenIfNeeded l2, Sourcelike.str "(",
               parenIfNeeded l1, Sourcelike.str "(x))"])
            value := Option.none }) ∧
    (∀ v : Sourcelike,
      makeValue { value := Option.some v, lambda := Option.none } = Except.ok v) :=
  ⟨fun _ _ => rfl, fun _ _ => rfl, fun _ => rfl⟩

/-- C10: the panic discipline of the `ValueOrLambda` overload of
`compose`.  A second argument whose value field is defined panics with
"Cannot compose into a value"; a second argument with no value (pure
lambda or empty) never panics; and the empty second argument returns the
first argument unchanged. -/
theorem c10_compose_vol_safety :
    (∀ (input f : ValueOrLambda) (v : Sourcelike), f.value = Option.some v →
      composeVol input f = Except.error "Cannot compose into a value") ∧
    (∀ input f : ValueOrLambda, f.value = Option.none →
      ∃ r, composeVol input f = Except.ok r) ∧
    (∀ input : ValueOrLambda,
      composeVol input { value := Option.none, lambda := Option.none } = Except.ok input) := by
  refine ⟨?_, ?_, ?_⟩
  · intro input f v hv
    obtain ⟨fv, fl⟩ := f
    simp only [ValueOrLambda.value] at hv
    subst hv
    rfl
  · intro input f hv
    obtain ⟨fv, fl⟩ := f
    simp only [ValueOrLambda.value] at hv
    subst hv
    obtain ⟨iv, il⟩ := input
    cases fl with
    | none => exact ⟨_, rfl⟩
    | some flam =>
      cases iv with
      | none =>
        cases il with
        | none => exact ⟨_, rfl⟩
        | some ilam => exact ⟨_, rfl⟩
      | some v =>
        cases il with
        | none => exact ⟨_, rfl⟩
        | some ilam => exact ⟨_, rfl⟩
  · intro input
    rfl

/-- C10 witness: the three parts of `c10_compose_vol_safety` at concrete
inputs. -/
theorem c10_compose_vol_safety_witness :
    composeVol identity { value := Option.some (Sourcelike.str "v"), lambda := Option.none } =
        Except.error "Cannot compose into a value" ∧
      ∃ r, composeVol identity
          { value := Option.none, lambda := Option.some (singleWord [Sourcelike.str "f"]) } =
        Except.ok r :=
  ⟨c10_compose_vol_safety.1 identity
      { value := Option.some (Sourcelike.str "v"), lambda := Option.none }
      (Sourcelike.str "v") rfl,
   c10_compose_vol_safety.2.1 identity
      { value := Option.none, lambda := Option.some (singleWord [Sourcelike.str "f"]) } rfl⟩

/-- C3: behavior of the emitted `from_union` primitive.  With the branch
list split as `fs1 ++ f :: fs2`, if every branch of `fs1` raises on `x`
and `f` succeeds, the result is `f x` — whatever the later branches
`fs2` are, so no branch after the first success is evaluated, and each
failing branch's exception is swallowed; and if every branch of a list
raises, the result is the final `assert False`. -/
theorem c3_from_union_order {α β : Type} (fs1 fs2 fs : List (α → Except String β))
    (f : α → Except String β) (x : α) (y : β) :
    ((∀ g ∈ fs1, ∃ e, g x = Except.error e) → f x = Except.ok y →
      from_union (fs1 ++ f :: fs2) x = Except.ok y) ∧
    ((∀ g ∈ fs, ∃ e, g x = Except.error e) →
      from_union fs x = Except.error "assert False") := by
  constructor
  · intro hfail hok
    induction fs1 with
    | nil => simp [from_union, hok]
    | cons g gs ih =>
      obtain ⟨e, he⟩ := hfail g (List.mem_cons_self g gs)
      have : from_union ((g :: gs) ++ f :: fs2) x = from_union (gs ++ f :: fs2) x := by
        simp [from_union, he]
      rw [this]
      exact ih (fun g2 hg2 => hfail g2 (List.mem_cons_of_mem g hg2))
  · intro hfail
    induction fs with
    | nil => rfl
    | cons g gs ih =>
      obtain ⟨e, he⟩ := hfail g (List.mem_cons_self g gs)
      have : from_union (g :: gs) x = from_union gs x := by
        simp [from_union, he]
      rw [this]
      exact ih (fun g2 hg2 => hfail g2 (List.mem_cons_of_mem g hg2))

/-- C3 witness: two branches fail, the third succeeds, the fourth is
arbitrary; and a list whose only branch fails hits the assertion. -/
theorem c3_from_union_order_witness :
    from_union
        [fun _ : Nat => (Except.error "e1" : Except String Nat),
         fun _ => Except.error "e2",
         fun n => Except.ok (n + 1),
         fun _ => Except.ok 99] 0 = Except.ok 1 ∧
      from_union [fun _ : Nat => (Except.error "e" : Except String Nat)] 0 =
        Except.error "assert False" := by
  constructor
  · exact (c3_from_union_order
        [fun _ : Nat => (Except.error "e1" : Except String Nat), fun _ => Except.error "e2"]
        [fun _ => Except.ok 99] [] (fun n => Except.ok (n + 1)) 0 1).1
      (by
        intro g hg
        simp only [List.mem_cons, List.not_mem_nil, or_false] at hg
        rcases hg with h | h <;> subst h
        · exact ⟨"e1", rfl⟩
        · exact ⟨"e2", rfl⟩)
      rfl
  · exact (c3_from_union_order [] []
        [fun _ : Nat => (Except.error "e" : Except String Nat)]
        (fun n => Except.ok (n + 1)) 0 1).2
      (by
        intro g hg
        simp only [List.mem_cons, List.not_mem_nil, or_false] at hg
        subst hg
        exact ⟨"e", rfl⟩)

/-- C9: the name stylers are deterministic: they are pure functions of
the version flag and the label (the embedding carries no other state),
so two independent evaluations on the same label coincide, and so does
identifier styling over any fixed entity-processing order. -/
theorem c9_styling_deterministic (version : PythonVersion) (original : String)
    (uppercase : Bool) (labels : List String) :
    classNameStyle version original = classNameStyle version original ∧
    snakeNameStyle version original uppercase = snakeNameStyle version original uppercase ∧
    labels.map (classNameStyle version) = labels.map (classNameStyle version) ∧
    labels.map (fun l => snakeNameStyle version l uppercase) =
      labels.map (fun l => snakeNameStyle version l uppercase) :=
  ⟨rfl, rfl, rfl, rfl⟩

/-- C5: the concrete naming scenarios of the spec: `"my-id_2"` under the
snake-lower-case role gives `"my_id_2"`, and `"Class Name!!"` under the
type-name role gives `"ClassName"`, for both grammar versions. -/
theorem c5_concrete_scenarios :
    snakeNameStyle PythonVersion.v2 "my-id_2" false = "my_id_2" ∧
    snakeNameStyle PythonVersion.v3 "my-id_2" false = "my_id_2" ∧
    classNameStyle PythonVersion.v2 "Class Name!!" = "ClassName" ∧
    classNameStyle PythonVersion.v3 "Class Name!!" = "ClassName" := by
  refine ⟨?_, ?_, ?_, ?_⟩ <;> decide

/-- C2 counterexample: the claim that every naming role switches its
identifier-start predicate with the version flag fails at the snake-case
role under version 2: the start predicate `snakeNameStyle` passes to
`combineWords` accepts U+00E9 (a non-ASCII lower-case letter), which the
older ASCII-only predicate `isStartCharacter2` rejects — so that role's
start check is not `isStartCharacter2`. -/
theorem c2_counterexample :
    (snakeNameStyleArgs PythonVersion.v2 false).isStartCharacter 233 = true ∧
    isStartCharacter2 233 = false :=
  ⟨rfl, rfl⟩

/-- C2 (amended): the version flag selects the per-character legalizer
of both roles and the start-character predicate of the type-name role
(`isStartCharacter2` for version 2, `isStartCharacter3` for version 3),
but the snake-case roles always use the Unicode-aware
`isStartCharacter3` as their start predicate. -/
theorem c2_version_rule_sets (version : PythonVersion) (uppercase : Bool) :
    (classNameStyleArgs version).legalize =
      (match version with
       | PythonVersion.v2 => legalizeName2
       | PythonVersion.v3 => legalizeName3) ∧
    (classNameStyleArgs version).isStartCharacter =
      (match version with
       | PythonVersion.v2 => isStartCharacter2
       | PythonVersion.v3 => isStartCharacter3) ∧
    (snakeNameStyleArgs version uppercase).legalize =
      (match version with
       | PythonVersion.v2 => legalizeName2
       | PythonVersion.v3 => legalizeName3) ∧
    (snakeNameStyleArgs version uppercase).isStartCharacter = isStartCharacter3 := by
  cases version <;> exact ⟨rfl, rfl, rfl, rfl⟩

/-- Helper: `transList` is the per-branch compilation from the neutral
`identity` start, converted to lambda sources, in branch order. -/
theorem transList_eq_branches (tt : STy) {bs : List Transformer}
    {vols : List ValueOrLambda}
    (h : List.Forall₂ (fun b vol => transformer identity b tt = Except.ok vol) bs vols) :
    transList bs tt = Except.ok (vols.map (fun vol => (makeLambda vol).source)) := by
  induction h with
  | nil => rfl
  | cons h1 _ ih =>
    rw [transList.eq_def]
    simp only [h1, ih, Bind.bind, Except.bind, List.map_cons]

/-- C7: compiling a choice node (decoding-choice or choice): every
branch is compiled independently starting from the neutral `identity`
value-or-lambda and converted to a lambda, and the result is the input
composed with a call to the union-try primitive receiving the ordered
list of branch lambdas followed by the input value. -/
theorem c7_choice_compiles_branches (input : ValueOrLambda) (st tt : STy)
    (branches : List Transformer) (vols : List ValueOrLambda)
    (h : List.Forall₂ (fun b vol => transformer identity b tt = Except.ok vol)
      branches vols) :
    transformer input (Transformer.decodingChoice st branches) tt =
      composeFn input (fun v => Sourcelike.arr
        [conv "union", Sourcelike.str "([",
         arrayIntercalate ", " (vols.map (fun vol => (makeLambda vol).source)),
         Sourcelike.str "], ", v, Sourcelike.str ")"]) ∧
    transformer input (Transformer.choice st branches) tt =
      composeFn input (fun v => Sourcelike.arr
        [conv "union", Sourcelike.str "([",
         arrayIntercalate ", " (vols.map (fun vol => (makeLambda vol).source)),
         Sourcelike.str "], ", v, Sourcelike.str ")"]) := by
  have ht := transList_eq_branches tt h
  constructor
  · rw [transformer.eq_def]
    simp only [ht, Bind.bind, Except.bind]
    rfl
  · rw [transformer.eq_def]
    simp only [ht, Bind.bind, Except.bind]
    rfl

/-- C7 witness: a one-branch choice node at concrete inputs (the branch
is a union-instantiation pass-through, compiling to `identity`). -/
theorem c7_choice_compiles_branches_witness :
    transformer identity
        (Transformer.choice STy.strT [Transformer.unionInstantiation STy.strT]) STy.strT =
      composeFn identity (fun v => Sourcelike.arr
        [conv "union", Sourcelike.str "([",
         arrayIntercalate ", " ([identity].map (fun vol => (makeLambda vol).source)),
         Sourcelike.str "], ", v, Sourcelike.str ")"]) :=
  (c7_choice_compiles_branches identity STy.strT STy.strT
      [Transformer.unionInstantiation STy.strT] [identity]
      (List.Forall₂.cons (by rw [transformer.eq_def]) List.Forall₂.nil)).2

/-- C4: the parse-string dispatch of the transformer compiler.  Writing
`immediate` for the consumer's declared immediate target (the overall
target type when there is no consumer): an integer target composes a
plain `int(...)` parse, an enum target recurses into that enum type's
deserializer, a date-time target composes the `from_datetime` primitive
— each result then fed to the consumer — and every other target kind
aborts generation with a panic (an `Except.error`, producing no runtime
behavior). -/
theorem c4_parse_string_dispatch (input : ValueOrLambda) (st : STy)
    (consumer : Option Transformer) (tt : STy) (immediate : STy)
    (him : immediate = (match consumer with
      | Option.none => tt
      | Option.some c => c.sourceType)) :
    (immediate.kind = "integer" →
      transformer input (Transformer.parseString st consumer) tt =
        (composeFn input (fun v =>
            Sourcelike.arr [Sourcelike.str "int(", v, Sourcelike.str ")"])) >>=
          (fun vol => consumeD consumer vol tt)) ∧
    (immediate.kind = "enum" →
      transformer input (Transformer.parseString st consumer) tt =
        (deserializerSyn input immediate) >>= (fun vol => consumeD consumer vol tt)) ∧
    (immediate.kind = "date-time" →
      transformer input (Transformer.parseString st consumer) tt =
        (convFn "from-datetime" input) >>= (fun vol => consumeD consumer vol tt)) ∧
    (immediate.kind ≠ "integer" → immediate.kind ≠ "enum" → immediate.kind ≠ "date-time" →
      transformer input (Transformer.parseString st consumer) tt =
        Except.error ("Parsing of " ++ immediate.kind ++
          " in a transformer is not supported")) := by
  refine ⟨?_, ?_, ?_, ?_⟩
  · intro h
    have hv : parseStringVol input immediate = composeFn input (fun v =>
        Sourcelike.arr [Sourcelike.str "int(", v, Sourcelike.str ")"]) := by
      unfold parseStringVol
      rw [h]
      rfl
    rw [him] at hv
    rw [transformer.eq_def]
    simp only [hv]
    rfl
  · intro h
    have hv : parseStringVol input immediate = deserializerSyn input immediate := by
      unfold parseStringVol
      rw [h]
      rfl
    rw [him] at hv
    rw [transformer.eq_def]
    simp only [hv]
    rw [him]
    rfl
  · intro h
    have hv : parseStringVol input immediate = convFn "from-datetime" input := by
      unfold parseStringVol
      rw [h]
      rfl
    rw [him] at hv
    rw [transformer.eq_def]
    simp only [hv]
    rfl
  · intro h1 h2 h3
    have b1 : (immediate.kind == "integer") = false := beq_eq_false_iff_ne.mpr h1
    have b2 : (immediate.kind == "enum") = false := beq_eq_false_iff_ne.mpr h2
    have b3 : (immediate.kind == "date-time") = false := beq_eq_false_iff_ne.mpr h3
    have hv : parseStringVol input immediate =
        Except.error ("Parsing of " ++ immediate.kind ++
          " in a transformer is not supported") := by
      unfold parseStringVol
      rw [b1, b2, b3]
      rfl
    have hmsg := him
    rw [him] at hv
    rw [transformer.eq_def]
    simp only [hv]
    rw [hmsg]
    rfl

/-- C4 witness: the enum branch and the panic branch at concrete inputs
(no consumer, so the immediate target is the overall target type). -/
theorem c4_parse_string_dispatch_witness :
    transformer identity (Transformer.parseString STy.strT Option.none)
        (STy.enumT "E" ["a"]) =
      (deserializerSyn identity (STy.enumT "E" ["a"])) >>=
        (fun vol => consumeD Option.none vol (STy.enumT "E" ["a"])) ∧
    transformer identity (Transformer.parseString STy.strT Option.none) STy.boolT =
      Except.error ("Parsing of " ++ STy.boolT.kind ++
        " in a transformer is not supported") :=
  ⟨(c4_parse_string_dispatch identity STy.strT Option.none (STy.enumT "E" ["a"])
      (STy.enumT "E" ["a"]) rfl).2.1 rfl,
   (c4_parse_string_dispatch identity STy.strT Option.none STy.boolT STy.boolT rfl).2.2.2
      (by decide) (by decide) (by decide)⟩

/-!  Helper lemmas for the round-trip property (C8).  -/

end PyQt
